import Mathlib

/-!
Shallow embedding of the bid-extraction service (`src/api/main.py`).

The service is one FastAPI handler plus two fixed-payload endpoints.  The
upstream model call is external; the handler is embedded as a function of the
model's reply text.  Machine-level caveats of the embedding, stated once:

* Python `str` is modelled as Lean `String` (a list of unicode scalar values).
  Lone surrogates producible by `json.loads` via `\uXXXX` escapes are not
  representable in `Char` and are approximated by `Char.ofNat`'s default;
  no claim touches them.
* JSON numbers are modelled exactly as rationals (CPython parses non-integer
  numbers to IEEE doubles; every number in the claims is a small integer,
  where the two agree).
* `json.loads` is modelled as a total function returning `Option`
  (`none` = `json.JSONDecodeError`); CPython recursion limits are not
  modelled.
-/

/-! ## Python string primitives -/

/-- Left brace character, written numerically. -/
def chLB : Char := Char.ofNat 123

/-- Right brace character, written numerically. -/
def chRB : Char := Char.ofNat 125

/-- Python `str.lower()` restricted to ASCII letters (the embedding's strings
are compared against ASCII extensions only). -/
def pyLower (s : String) : String := String.mk (s.data.map Char.toLower)

/-- Python `str.endswith(suf)`. -/
def pyEndsWith (s suf : String) : Bool := suf.data.isSuffixOf s.data

/-- Python whitespace for `str.strip()` (ASCII subset). -/
def isPySpace (c : Char) : Bool :=
  c = ' ' || c = '\t' || c = '\n' || c = '\r' || c = '\x0b' || c = '\x0c'

/-- Python `str.strip()`. -/
def pyStrip (s : String) : String :=
  String.mk (((s.data.dropWhile isPySpace).reverse.dropWhile isPySpace).reverse)

/-- Clamp a Python index for slicing: negative indices count from the end,
then the result is clamped into `[0, len]`. -/
def pyClampIndex (len : Nat) (i : Int) : Nat :=
  if i < 0 then (i + len).toNat else min i.toNat len

/-- Python slice `s[a:b]` (no step). -/
def pySlice (s : String) (a b : Int) : String :=
  String.mk ((s.data.take (pyClampIndex s.data.length b)).drop
    (pyClampIndex s.data.length a))

/-- Scan helper for `str.find`: first index `≥ i` (passed as accumulator)
where `nd` is a prefix of the remaining list. -/
def findSubAux (nd : List Char) : List Char → Nat → Option Nat
  | [], i => if nd.isPrefixOf ([] : List Char) then some i else none
  | c :: t, i => if nd.isPrefixOf (c :: t) then some i else findSubAux nd t (i + 1)

/-- Python `hay.find(nd, start)` on lists, `Option`-valued, `start : Nat`. -/
def pyFindNatFrom (hay nd : List Char) (start : Nat) : Option Nat :=
  if start ≤ hay.length then findSubAux nd (hay.drop start) start else none

/-- Python `s.find(sub, start)`; `-1` when absent.  (Faithful for the
nonempty `sub`s the handler uses.) -/
def pyFindFrom (s sub : String) (start : Int) : Int :=
  match pyFindNatFrom s.data sub.data (pyClampIndex s.data.length start) with
  | some i => (i : Int)
  | none => -1

/-- Python `s.find(sub)`. -/
def pyFind (s sub : String) : Int := pyFindFrom s sub 0

/-- Python `sub in s`. -/
def pyContains (s sub : String) : Bool := (pyFindNatFrom s.data sub.data 0).isSome

/-- Python `hay.rfind(nd)` on lists: greatest index where `nd` occurs. -/
def pyRFindNat (hay nd : List Char) : Option Nat :=
  (List.range (hay.length + 1)).reverse.find? (fun i => nd.isPrefixOf (hay.drop i))

/-- Python `s.rfind(sub)`; `-1` when absent. -/
def pyRFind (s sub : String) : Int :=
  match pyRFindNat s.data sub.data with
  | some i => (i : Int)
  | none => -1

/-! ## JSON values and `json.loads` -/

/-- A Python float/int as produced by `json.loads`: an exact rational, or one
of the non-finite constants the parser accepts (`NaN`, `Infinity`,
`-Infinity`). -/
inductive PyNum where
  | fin (q : Rat)
  | nan
  | inf
  | ninf
deriving DecidableEq, Repr

/-- A parsed JSON value (Python object produced by `json.loads`). -/
inductive JsonValue where
  | null
  | bool (b : Bool)
  | num (n : PyNum)
  | str (s : String)
  | arr (items : List JsonValue)
  | obj (fields : List (String × JsonValue))

/-- JSON inter-token whitespace (per RFC, as accepted by CPython's json). -/
def jsonWs (c : Char) : Bool := c = ' ' || c = '\t' || c = '\n' || c = '\r'

/-- Drop leading JSON whitespace. -/
def skipWs : List Char → List Char
  | [] => []
  | c :: t => if jsonWs c then skipWs t else c :: t

/-- One hex digit. -/
def parseHexDigit (c : Char) : Option Nat :=
  if c.isDigit then some (c.toNat - 48)
  else if 'a' ≤ c && c ≤ 'f' then some (c.toNat - 87)
  else if 'A' ≤ c && c ≤ 'F' then some (c.toNat - 55)
  else none

/-- Four hex digits, as in a `\uXXXX` escape. -/
def parse4Hex : List Char → Option (Nat × List Char)
  | a :: b :: c :: d :: t =>
    match parseHexDigit a, parseHexDigit b, parseHexDigit c, parseHexDigit d with
    | some x, some y, some z, some w => some (x * 4096 + y * 256 + z * 16 + w, t)
    | _, _, _, _ => none
  | _ => none

/-- JSON string body after the opening quote: content chars and the rest
after the closing quote.  Escapes as in CPython's strict mode: raw control
chars below 0x20 are rejected; `\uXXXX` surrogate pairs are combined. -/
def parseJString : Nat → List Char → Option (List Char × List Char)
  | 0, _ => none
  | _ + 1, [] => none
  | fuel + 1, c :: rest =>
    if c = '"' then some ([], rest)
    else if c = '\\' then
      match rest with
      | [] => none
      | e :: rest2 =>
        if e = '"' || e = '\\' || e = '/' then
          (parseJString fuel rest2).map (fun p => (e :: p.1, p.2))
        else if e = 'b' then (parseJString fuel rest2).map (fun p => ('\x08' :: p.1, p.2))
        else if e = 'f' then (parseJString fuel rest2).map (fun p => ('\x0c' :: p.1, p.2))
        else if e = 'n' then (parseJString fuel rest2).map (fun p => ('\n' :: p.1, p.2))
        else if e = 'r' then (parseJString fuel rest2).map (fun p => ('\r' :: p.1, p.2))
        else if e = 't' then (parseJString fuel rest2).map (fun p => ('\t' :: p.1, p.2))
        else if e = 'u' then
          match parse4Hex rest2 with
          | none => none
          | some (n, r) =>
            if 0xD800 ≤ n && n < 0xDC00 then
              match r with
              | '\\' :: 'u' :: r2 =>
                match parse4Hex r2 with
                | some (m, r3) =>
                  if 0xDC00 ≤ m && m < 0xE000 then
                    (parseJString fuel r3).map (fun p =>
                      (Char.ofNat (0x10000 + (n - 0xD800) * 0x400 + (m - 0xDC00)) :: p.1, p.2))
                  else (parseJString fuel r).map (fun p => (Char.ofNat n :: p.1, p.2))
                | none => (parseJString fuel r).map (fun p => (Char.ofNat n :: p.1, p.2))
              | _ => (parseJString fuel r).map (fun p => (Char.ofNat n :: p.1, p.2))
            else (parseJString fuel r).map (fun p => (Char.ofNat n :: p.1, p.2))
        else none
    else if c.toNat < 0x20 then none
    else (parseJString fuel rest).map (fun p => (c :: p.1, p.2))

/-- Decimal digits to a natural number. -/
def digitsToNat (ds : List Char) : Nat :=
  ds.foldl (fun a c => a * 10 + (c.toNat - 48)) 0

/-- Assemble a parsed decimal number: sign, integer part, fraction digits,
exponent. -/
def numFromDecimal (neg : Bool) (ip : Nat) (fds : List Char) (ex : Int) : PyNum :=
  let k := fds.length
  let mag : Nat := ip * 10 ^ k + digitsToNat fds
  let mant : Int := if neg then -(mag : Int) else (mag : Int)
  let e : Int := ex - (k : Int)
  if 0 ≤ e then .fin (mkRat (mant * 10 ^ e.toNat) 1)
  else .fin (mkRat mant (10 ^ (-e).toNat))

/-- Fraction part `.digits+` of a JSON number; consumed only when at least
one digit follows the dot (as in CPython's NUMBER_RE). -/
def parseFrac (l : List Char) : List Char × List Char :=
  match l with
  | '.' :: r =>
    let ds := r.takeWhile Char.isDigit
    if ds.isEmpty then ([], l) else (ds, r.dropWhile Char.isDigit)
  | _ => ([], l)

/-- Exponent digits after an optional sign; falls back to `orig` when no
digit follows. -/
def parseExpAux (sign : Int) (r : List Char) (orig : List Char) : Int × List Char :=
  let ds := r.takeWhile Char.isDigit
  if ds.isEmpty then (0, orig) else (sign * (digitsToNat ds : Int), r.dropWhile Char.isDigit)

/-- Exponent part `[eE][+-]?digits+` of a JSON number. -/
def parseExp (l : List Char) : Int × List Char :=
  match l with
  | 'e' :: r => (match r with
    | '+' :: r2 => parseExpAux 1 r2 l
    | '-' :: r2 => parseExpAux (-1) r2 l
    | _ => parseExpAux 1 r l)
  | 'E' :: r => (match r with
    | '+' :: r2 => parseExpAux 1 r2 l
    | '-' :: r2 => parseExpAux (-1) r2 l
    | _ => parseExpAux 1 r l)
  | _ => (0, l)

/-- A JSON number per CPython's NUMBER_RE:
`-?(0|[1-9]\d*)(\.\d+)?([eE][-+]?\d+)?`. -/
def parseNumber (l : List Char) : Option (PyNum × List Char) :=
  let p := match l with
    | '-' :: t => (true, t)
    | _ => (false, l)
  match p.2 with
  | '0' :: t =>
    let q := parseFrac t
    let r := parseExp q.2
    some (numFromDecimal p.1 0 q.1 r.1, r.2)
  | c :: t =>
    if c.isDigit then
      let ds := (c :: t).takeWhile Char.isDigit
      let q := parseFrac ((c :: t).dropWhile Char.isDigit)
      let r := parseExp q.2
      some (numFromDecimal p.1 (digitsToNat ds) q.1 r.1, r.2)
    else none
  | [] => none

mutual

/-- One JSON value (after skipping leading whitespace), CPython-style:
objects, arrays, strings, numbers, `true`/`false`/`null`, and the CPython
extensions `NaN`, `Infinity`, `-Infinity`. -/
def parseValue : Nat → List Char → Option (JsonValue × List Char)
  | 0, _ => none
  | fuel + 1, l =>
    let l' := skipWs l
    if ['n', 'u', 'l', 'l'].isPrefixOf l' then some (.null, l'.drop 4)
    else if ['t', 'r', 'u', 'e'].isPrefixOf l' then some (.bool true, l'.drop 4)
    else if ['f', 'a', 'l', 's', 'e'].isPrefixOf l' then some (.bool false, l'.drop 5)
    else if ['N', 'a', 'N'].isPrefixOf l' then some (.num .nan, l'.drop 3)
    else if ['I', 'n', 'f', 'i', 'n', 'i', 't', 'y'].isPrefixOf l' then
      some (.num .inf, l'.drop 8)
    else if ['-', 'I', 'n', 'f', 'i', 'n', 'i', 't', 'y'].isPrefixOf l' then
      some (.num .ninf, l'.drop 9)
    else
      match l' with
      | '"' :: r => (parseJString fuel r).map (fun p => (.str (String.mk p.1), p.2))
      | '[' :: r => parseArrayItems fuel r
      | '-' :: _ => (parseNumber l').map (fun p => (.num p.1, p.2))
      | c :: r =>
        if c = chLB then parseObjItems fuel r
        else if c.isDigit then (parseNumber l').map (fun p => (.num p.1, p.2))
        else none
      | [] => none

/-- Array items after `[`. -/
def parseArrayItems : Nat → List Char → Option (JsonValue × List Char)
  | 0, _ => none
  | fuel + 1, l =>
    match skipWs l with
    | ']' :: r => some (.arr [], r)
    | l' => parseArrayRest fuel [] l'

/-- Array continuation: one value, then `,` and more or `]`. -/
def parseArrayRest : Nat → List JsonValue → List Char → Option (JsonValue × List Char)
  | 0, _, _ => none
  | fuel + 1, acc, l =>
    match parseValue fuel l with
    | none => none
    | some (v, r) =>
      match skipWs r with
      | ',' :: r2 => parseArrayRest fuel (acc ++ [v]) r2
      | ']' :: r2 => some (.arr (acc ++ [v]), r2)
      | _ => none

/-- Object members after `{`. -/
def parseObjItems : Nat → List Char → Option (JsonValue × List Char)
  | 0, _ => none
  | fuel + 1, l =>
    match skipWs l with
    | [] => none
    | c :: r => if c = chRB then some (.obj [], r) else parseObjRest fuel [] (c :: r)

/-- Object continuation: a quoted key, `:`, a value, then `,` and more or
`}`. -/
def parseObjRest : Nat → List (String × JsonValue) → List Char →
    Option (JsonValue × List Char)
  | 0, _, _ => none
  | fuel + 1, acc, l =>
    match l with
    | '"' :: r =>
      match parseJString fuel r with
      | none => none
      | some (key, r1) =>
        match skipWs r1 with
        | ':' :: r2 =>
          match parseValue fuel r2 with
          | none => none
          | some (v, r3) =>
            match skipWs r3 with
            | ',' :: r4 => parseObjRest fuel (acc ++ [(String.mk key, v)]) (skipWs r4)
            | c :: r4 =>
              if c = chRB then some (.obj (acc ++ [(String.mk key, v)]), r4) else none
            | [] => none
        | _ => none
    | _ => none

end

/-- Python `json.loads` on a string: one value, optionally surrounded by
whitespace; anything left over is an error (`none`). -/
def json_loads (s : String) : Option JsonValue :=
  match parseValue (2 * s.data.length + 8) s.data with
  | some (v, rest) => if skipWs rest = [] then some v else none
  | none => none

/-! ## Data model (pydantic models from `src/api/main.py`) -/

/-- `LineItem` (pydantic): one bid-form row. -/
structure LineItem where
  item_number : Option String := none
  description : String
  quantity : Option PyNum := none
  unit : Option String := none
  unit_price : Option PyNum := none
  total_price : Option PyNum := none
  notes : Option String := none
deriving DecidableEq, Repr

/-- `BidFormResponse` (pydantic): the extraction endpoint's response model. -/
structure BidFormResponse where
  project_name : Option String := none
  line_items : List LineItem
  extraction_confidence : String
  raw_text : Option String := none
deriving DecidableEq, Repr

/-- A Python exception relevant to the handler: FastAPI's `HTTPException`,
`TypeError` from keyword-argument construction, pydantic's
`ValidationError`. -/
inductive PyExc where
  | httpException (status : Nat) (detail : String)
  | typeError (msg : String)
  | validationError (msg : String)
deriving DecidableEq, Repr

/-- Outcome of a Python computation: a value, or a raised exception. -/
inductive Py (α : Type) where
  | ok (a : α)
  | raised (e : PyExc)
deriving DecidableEq, Repr

instance : Monad Py where
  pure := Py.ok
  bind := fun m f => match m with
    | .ok a => f a
    | .raised e => .raised e

/-- Python `str(e)`: `HTTPException`'s `Exception.args` is the pair
`(status_code, detail)` (starlette passes both to `super().__init__`), so
`str(e)` is the tuple's repr; the other exceptions carry their message. -/
def pyStrExc : PyExc → String
  | .httpException status detail =>
    "(" ++ toString status ++ ", \x27" ++ detail ++ "\x27)"
  | .typeError msg => msg
  | .validationError msg => msg

/-! ## pydantic construction `BidFormResponse(**result, raw_text=...)` -/

/-- `json.loads` builds a `dict`: later duplicate keys overwrite earlier
ones. -/
def dictOfFields (fields : List (String × JsonValue)) : List (String × JsonValue) :=
  fields.foldl (fun acc kv => acc.filter (fun p => p.1 != kv.1) ++ [kv]) []

/-- Dictionary lookup by key. -/
def lookupKey (d : List (String × JsonValue)) (k : String) : Option JsonValue :=
  (d.find? (fun p => p.1 == k)).map (fun p => p.2)

/-- Validate an `Optional[str]` field: absent or `null` gives `none`; a JSON
string is accepted; anything else is a `ValidationError`. -/
def validateOptStr (d : List (String × JsonValue)) (k : String) : Py (Option String) :=
  match lookupKey d k with
  | none => .ok none
  | some .null => .ok none
  | some (.str s) => .ok (some s)
  | some _ => .raised (.validationError (k ++ ": str type expected"))

/-- Validate an `Optional[float]` field: absent or `null` gives `none`; a
JSON number is accepted (ints coerce to float); anything else is a
`ValidationError`. -/
def validateOptNum (d : List (String × JsonValue)) (k : String) : Py (Option PyNum) :=
  match lookupKey d k with
  | none => .ok none
  | some .null => .ok none
  | some (.num n) => .ok (some n)
  | some _ => .raised (.validationError (k ++ ": float type expected"))

/-- Validate a required `str` field. -/
def validateReqStr (d : List (String × JsonValue)) (k : String) : Py String :=
  match lookupKey d k with
  | some (.str s) => .ok s
  | some _ => .raised (.validationError (k ++ ": str type expected"))
  | none => .raised (.validationError (k ++ ": field required"))

/-- Validate one element of `line_items` as a `LineItem`. -/
def validateLineItem (v : JsonValue) : Py LineItem :=
  match v with
  | .obj fs =>
    let d := dictOfFields fs
    do
      let inum ← validateOptStr d "item_number"
      let desc ← validateReqStr d "description"
      let qty ← validateOptNum d "quantity"
      let u ← validateOptStr d "unit"
      let uprice ← validateOptNum d "unit_price"
      let tprice ← validateOptNum d "total_price"
      let nts ← validateOptStr d "notes"
      pure { item_number := inum, description := desc, quantity := qty,
             unit := u, unit_price := uprice, total_price := tprice, notes := nts }
  | _ => .raised (.validationError "line_items: LineItem dict expected")

/-- Validate the required `List[LineItem]` field. -/
def validateLineItems (d : List (String × JsonValue)) : Py (List LineItem) :=
  match lookupKey d "line_items" with
  | some (.arr xs) => xs.mapM validateLineItem
  | some _ => .raised (.validationError "line_items: list type expected")
  | none => .raised (.validationError "line_items: field required")

/-- `BidFormResponse(**result, raw_text=response_text)`: `result` must be a
dict; a `raw_text` key in it collides with the explicit keyword argument
(`TypeError` raised before validation); otherwise pydantic validates the
fields (extra keys ignored). -/
def buildBidFormResponse (v : JsonValue) (response_text : String) : Py BidFormResponse :=
  match v with
  | .obj fields =>
    let d := dictOfFields fields
    if d.any (fun p => p.1 == "raw_text") then
      .raised (.typeError
        "BidFormResponse() got multiple values for keyword argument \x27raw_text\x27")
    else do
      let pn ← validateOptStr d "project_name"
      let li ← validateLineItems d
      let ec ← validateReqStr d "extraction_confidence"
      pure { project_name := pn, line_items := li, extraction_confidence := ec,
             raw_text := some response_text }
  | _ => .raised (.typeError "BidFormResponse() argument after ** must be a mapping")

/-! ## The handler (`src/api/main.py`, `extract_bid_from_diagram`) -/

/-- Media type from the upload's filename (lines 69-78): extension matched
case-insensitively, defaulting to `image/jpeg`; the check runs only when the
filename is truthy.  The result is only forwarded upstream. -/
def inferMediaType (filename : Option String) : String :=
  match filename with
  | none => "image/jpeg"
  | some f =>
    if f == "" then "image/jpeg"
    else if pyEndsWith (pyLower f) ".png" then "image/png"
    else if pyEndsWith (pyLower f) ".jpg" || pyEndsWith (pyLower f) ".jpeg" then "image/jpeg"
    else if pyEndsWith (pyLower f) ".webp" then "image/webp"
    else if pyEndsWith (pyLower f) ".gif" then "image/gif"
    else "image/jpeg"

/-- The JSON-recovery heuristic (lines 141-150): candidate from a
```` ```json ```` fence, else from the first `{` to the last `}`, else the
whole text. -/
def extractJsonStr (response_text : String) : String :=
  if pyContains response_text "```json" then
    pyStrip (pySlice response_text (pyFind response_text "```json" + 7)
      (pyFindFrom response_text "```" (pyFind response_text "```json" + 7)))
  else if pyContains response_text "\x7b" then
    pySlice response_text (pyFind response_text "\x7b")
      (pyRFind response_text "\x7d" + 1)
  else
    response_text

/-- Lines 139-160: recover the candidate, `json.loads` it, construct the
response; `json.JSONDecodeError` alone is absorbed into the degraded
empty-result response. -/
def handleReply (response_text : String) : Py BidFormResponse :=
  match json_loads (extractJsonStr response_text) with
  | some result => buildBidFormResponse result response_text
  | none =>
    .ok { project_name := none, line_items := [],
          extraction_confidence := "low", raw_text := some response_text }

/-- Python truthiness of `os.getenv` results (`None` and `""` are falsy). -/
def pyTruthy : Option String → Bool
  | none => false
  | some s => !(s == "")

/-- The `try:` body of the endpoint: read the upload, require the
credential (line 58-60), infer the media type, call the model (abstracted:
its reply is the `model_reply` parameter), and parse the reply. -/
def extract_bid_inner (api_key : Option String) (filename : Option String)
    (content : List Nat) (model_reply : String) : Py BidFormResponse :=
  if !pyTruthy api_key then
    .raised (.httpException 500 "ANTHROPIC_API_KEY not configured")
  else
    let _media_type := inferMediaType filename
    let _content := content
    handleReply model_reply

/-- The whole endpoint (lines 48-163): any exception from the body —
including the inner `HTTPException`, which derives `Exception` — is caught
and re-raised as `HTTPException(500, "Error processing image: " + str(e))`. -/
def extract_bid_from_diagram (api_key : Option String) (filename : Option String)
    (content : List Nat) (model_reply : String) : Py BidFormResponse :=
  match extract_bid_inner api_key filename content model_reply with
  | .ok r => .ok r
  | .raised e => .raised (.httpException 500 ("Error processing image: " ++ pyStrExc e))

/-- `GET /` (lines 44-46). -/
def root : JsonValue :=
  .obj [("message", .str "Preconstruction Bidding API"), ("status", .str "running")]

/-- `GET /health` (lines 165-167). -/
def health_check : JsonValue :=
  .obj [("status", .str "healthy")]

/-- Does a parsed reply's top-level JSON object have the given key? -/
def objHasKey (v : Option JsonValue) (k : String) : Bool :=
  match v with
  | some (.obj fs) => (dictOfFields fs).any (fun p => p.1 == k)
  | _ => false

/-! ## The candidate selection as claim C2 words it (refinement targets) -/

/-- Candidate selection exactly as C2 states it: in the fence branch,
"everything between the opening fence (the text after the tag) and the next
closing fence", with no whitespace stripping; `none` where the claim's
description picks out nothing (no closing fence / no closing brace). -/
def candidateAsClaimed (t : String) : Option String :=
  match pyFindNatFrom t.data "```json".data 0 with
  | some i =>
    match pyFindNatFrom (t.data.drop (i + 7)) "```".data 0 with
    | some j => some (String.mk ((t.data.drop (i + 7)).take j))
    | none => none
  | none =>
    match pyFindNatFrom t.data "\x7b".data 0 with
    | some p =>
      match pyRFindNat t.data "\x7d".data with
      | some q => some (String.mk ((t.data.take (q + 1)).drop p))
      | none => none
    | none => some t

/-- C2's candidate selection amended by what the code actually does in the
fence branch: the text between the fences is additionally stripped of
leading and trailing whitespace. -/
def candidateAmended (t : String) : Option String :=
  match pyFindNatFrom t.data "```json".data 0 with
  | some i =>
    match pyFindNatFrom (t.data.drop (i + 7)) "```".data 0 with
    | some j => some (pyStrip (String.mk ((t.data.drop (i + 7)).take j)))
    | none => none
  | none =>
    match pyFindNatFrom t.data "\x7b".data 0 with
    | some p =>
      match pyRFindNat t.data "\x7d".data with
      | some q => some (String.mk ((t.data.take (q + 1)).drop p))
      | none => none
    | none => some t

/-- The text after the first ```` ```json ```` tag (used to state C9). -/
def afterJsonTag (t : String) : List Char :=
  t.data.drop ((pyFind t "```json").toNat + 7)

/-! ## Concrete replies used by the concrete claims -/

/-- A model reply carrying the C4 fenced JSON block. -/
def c4_reply : String :=
  "Here is the extracted data:\n```json\n\x7b\"project_name\": \"Lot 5\", \"line_items\": [], \"extraction_confidence\": \"high\"\x7d\n```"

/-- The C5 model reply. -/
def c5_reply : String :=
  "Here is the data: \x7b\"line_items\": [\x7b\"description\": \"Concrete pour\", \"quantity\": 10, \"unit\": \"CY\"\x7d], \"extraction_confidence\": \"medium\"\x7d"

/-- A model reply whose JSON object itself carries a `raw_text` key. -/
def c8_reply : String :=
  "\x7b\"line_items\": [], \"extraction_confidence\": \"high\", \"raw_text\": \"model text\"\x7d"

/-! ## Helper lemmas -/

/-- A failed `json.loads` is absorbed into the degraded response. -/
theorem handleReply_of_loads_none {t : String}
    (h : json_loads (extractJsonStr t) = none) :
    handleReply t = .ok { project_name := none, line_items := [],
                          extraction_confidence := "low", raw_text := some t } := by
  unfold handleReply
  rw [h]

/-! ## Claim theorems -/

/-- C1: for every model reply text, if parsing the recovered candidate
string as JSON fails, the extraction handler does not fail the request: it
returns a `BidFormResponse` with empty `line_items`, confidence `"low"`,
and `raw_text` equal to the full original reply. -/
theorem parse_failure_returns_degraded_response (response_text : String)
    (h : json_loads (extractJsonStr response_text) = none) :
    handleReply response_text = .ok { project_name := none, line_items := [],
                                        extraction_confidence := "low",
                                        raw_text := some response_text } :=
  handleReply_of_loads_none h

/-- Witness for C1 at a concrete unparseable reply. -/
theorem parse_failure_returns_degraded_response_witness :
    json_loads (extractJsonStr "Sorry, no structured data.") = none ∧
    handleReply "Sorry, no structured data." = .ok {
      project_name := none,
      line_items := [], extraction_confidence := "low",
      raw_text := some "Sorry, no structured data." } :=
  ⟨rfl, parse_failure_returns_degraded_response "Sorry, no structured data." rfl⟩

set_option maxRecDepth 100000 in
/-- C4: a reply carrying a fenced `json` block whose body is the Lot 5
object yields `project_name "Lot 5"`, no line items, confidence `"high"`,
and `raw_text` equal to the full original reply. -/
theorem fenced_json_reply_extracts_project_lot5 :
    handleReply c4_reply = .ok {
      project_name := some "Lot 5", line_items := [],
      extraction_confidence := "high", raw_text := some c4_reply } := by
  decide

set_option maxRecDepth 100000 in
/-- C5: the brace-delimited substring of the C5 reply is the candidate, and
it parses to exactly one line item (description "Concrete pour", quantity
10, unit "CY", all other optional fields absent), confidence `"medium"`. -/
theorem brace_substring_reply_extracts_one_line_item :
    extractJsonStr c5_reply =
      "\x7b\"line_items\": [\x7b\"description\": \"Concrete pour\", \"quantity\": 10, \"unit\": \"CY\"\x7d], \"extraction_confidence\": \"medium\"\x7d" ∧
    handleReply c5_reply = .ok {
      project_name := none,
      line_items := [{ item_number := none, description := "Concrete pour",
                       quantity := some (PyNum.fin 10), unit := some "CY",
                       unit_price := none,
                       total_price := none, notes := none }],
      extraction_confidence := "medium", raw_text := some c5_reply } := by
  constructor
  · decide
  · decide

/-- C6: a reply containing neither a ```` ```json ```` tag nor a `\x7b` is
used whole as the candidate; when that parse fails the handler returns the
degraded empty response with the reply as `raw_text`. -/
theorem no_brace_reply_parses_whole_text_and_degrades (t : String)
    (h1 : pyContains t "```json" = false) (h2 : pyContains t "\x7b" = false) :
    extractJsonStr t = t ∧
    (json_loads t = none →
      handleReply t = .ok { project_name := none, line_items := [],
                            extraction_confidence := "low",
                            raw_text := some t }) := by
  have he : extractJsonStr t = t := by
    simp [extractJsonStr, h1, h2]
  refine ⟨he, fun hp => handleReply_of_loads_none ?_⟩
  rw [he]
  exact hp

/-- Witness for C6 at the spec's example reply. -/
theorem no_brace_reply_parses_whole_text_and_degrades_witness :
    pyContains "I cannot process this image" "```json" = false ∧
    pyContains "I cannot process this image" "\x7b" = false ∧
    json_loads "I cannot process this image" = none ∧
    extractJsonStr "I cannot process this image" = "I cannot process this image" ∧
    handleReply "I cannot process this image" = .ok {
      project_name := none,
      line_items := [], extraction_confidence := "low",
      raw_text := some "I cannot process this image" } :=
  ⟨rfl, rfl, rfl,
    (no_brace_reply_parses_whole_text_and_degrades "I cannot process this image" rfl rfl).1,
    (no_brace_reply_parses_whole_text_and_degrades "I cannot process this image" rfl rfl).2 rfl⟩

/-- C7: with the credential absent, every request to the extraction
endpoint ends as a 500 whose detail contains "not configured" (the inner
`HTTPException` is itself re-wrapped by the catch-all `except`),
regardless of filename, upload content, or what the model would reply. -/
theorem missing_api_key_yields_500_not_configured (filename : Option String)
    (content : List Nat) (model_reply : String) :
    extract_bid_from_diagram none filename content model_reply =
      .raised (.httpException 500
        "Error processing image: (500, \x27ANTHROPIC_API_KEY not configured\x27)") ∧
    pyContains "Error processing image: (500, \x27ANTHROPIC_API_KEY not configured\x27)"
      "not configured" = true := by
  constructor
  · rfl
  · decide

set_option maxRecDepth 100000 in
/-- C8: a reply whose recovered JSON object itself contains a `raw_text`
key makes `BidFormResponse(**result, raw_text=...)` raise a duplicate
keyword `TypeError`, which escapes the `json.JSONDecodeError` handler and
surfaces as a generic 500, not a `BidFormResponse`. -/
theorem raw_text_key_collision_raises_500 :
    objHasKey (json_loads (extractJsonStr c8_reply)) "raw_text" = true ∧
    extract_bid_from_diagram (some "sk-key") (some "diagram.png") [] c8_reply =
      .raised (.httpException 500
        "Error processing image: BidFormResponse() got multiple values for keyword argument \x27raw_text\x27") := by
  constructor
  · decide
  · decide

/-- C10: the root and health endpoints return their fixed payloads. -/
theorem fixed_payload_endpoints :
    root = JsonValue.obj [("message", .str "Preconstruction Bidding API"),
      ("status", .str "running")] ∧
    health_check = JsonValue.obj [("status", .str "healthy")] :=
  ⟨rfl, rfl⟩

/-! ## List helper lemmas for suffix reasoning -/

/-- A `Bool`-valued list prefix is no longer than the list. -/
theorem isPrefixOf_length {nd : List Char} : ∀ {l : List Char},
    nd.isPrefixOf l = true → nd.length ≤ l.length := by
  induction nd with
  | nil => intro l _; simp
  | cons a as ih =>
    intro l h
    cases l with
    | nil => simp [List.isPrefixOf] at h
    | cons b bs =>
      simp only [List.isPrefixOf, Bool.and_eq_true] at h
      simpa using Nat.succ_le_succ (ih h.2)

/-- Of two prefixes of the same list, the shorter is a prefix of the
longer. -/
theorem isPrefixOf_mono : ∀ {l p1 p2 : List Char}, p1.isPrefixOf l = true →
    p2.isPrefixOf l = true → p1.length ≤ p2.length → p1.isPrefixOf p2 = true := by
  intro l
  induction l with
  | nil =>
    intro p1 p2 h1 _ _
    cases p1 with
    | nil => simp [List.isPrefixOf]
    | cons a as => simp [List.isPrefixOf] at h1
  | cons c cs ih =>
    intro p1 p2 h1 h2 hlen
    cases p1 with
    | nil => simp [List.isPrefixOf]
    | cons a as =>
      cases p2 with
      | nil => simp at hlen
      | cons b bs =>
        simp only [List.isPrefixOf, Bool.and_eq_true, beq_iff_eq] at h1 h2 ⊢
        refine ⟨h1.1.trans h2.1.symm, ih h1.2 h2.2 ?_⟩
        simpa using hlen

/-- Two `pyEndsWith` facts about the same string are incompatible when the
shorter suffix is not itself a suffix of the longer one. -/
theorem pyEndsWith_excl {s a b : String} (hlen : a.data.length ≤ b.data.length)
    (hf : a.data.reverse.isPrefixOf b.data.reverse = false)
    (ha : pyEndsWith s a = true) (hb : pyEndsWith s b = true) : False := by
  unfold pyEndsWith List.isSuffixOf at ha hb
  have := isPrefixOf_mono ha hb (by simpa using hlen)
  rw [this] at hf
  cases hf

/-- C3: the inferred media type is `image/png` for names ending in `.png`,
`image/jpeg` for `.jpg`/`.jpeg`, `image/webp` for `.webp`, `image/gif` for
`.gif` (all case-insensitive); any other extension, or no filename, yields
the `image/jpeg` default. -/
theorem media_type_inference_matches_extension (f : String) :
    inferMediaType none = "image/jpeg"
    ∧ (pyEndsWith (pyLower f) ".png" = true → inferMediaType (some f) = "image/png")
    ∧ (pyEndsWith (pyLower f) ".jpg" = true ∨ pyEndsWith (pyLower f) ".jpeg" = true →
        inferMediaType (some f) = "image/jpeg")
    ∧ (pyEndsWith (pyLower f) ".webp" = true → inferMediaType (some f) = "image/webp")
    ∧ (pyEndsWith (pyLower f) ".gif" = true → inferMediaType (some f) = "image/gif")
    ∧ (pyEndsWith (pyLower f) ".png" = false → pyEndsWith (pyLower f) ".jpg" = false →
        pyEndsWith (pyLower f) ".jpeg" = false → pyEndsWith (pyLower f) ".webp" = false →
        pyEndsWith (pyLower f) ".gif" = false → inferMediaType (some f) = "image/jpeg") := by
  have hfe : ∀ (suf : String), pyEndsWith (pyLower f) suf = true →
      pyEndsWith (pyLower "") suf = false → (f == "") = false := by
    intro suf h hempty
    cases hf0 : f == "" with
    | false => rfl
    | true =>
      have hf1 : f = "" := by simpa using hf0
      rw [hf1] at h
      rw [h] at hempty
      cases hempty
  refine ⟨rfl, ?_, ?_, ?_, ?_, ?_⟩
  · intro h
    have h0 := hfe ".png" h (by decide)
    simp [inferMediaType, h0, h]
  · intro h
    have hA : pyEndsWith (pyLower f) ".png" = false := by
      cases hA' : pyEndsWith (pyLower f) ".png" with
      | false => rfl
      | true =>
        exfalso
        rcases h with hB | hC
        · exact pyEndsWith_excl (by decide) (by decide) hA' hB
        · exact pyEndsWith_excl (by decide) (by decide) hA' hC
    rcases h with hB | hC
    · have h0 := hfe ".jpg" hB (by decide)
      simp [inferMediaType, h0, hA, hB]
    · have h0 := hfe ".jpeg" hC (by decide)
      simp [inferMediaType, h0, hA, hC]
  · intro h
    have h0 := hfe ".webp" h (by decide)
    have hA : pyEndsWith (pyLower f) ".png" = false := by
      cases hA' : pyEndsWith (pyLower f) ".png" with
      | false => rfl
      | true => exact absurd (pyEndsWith_excl (by decide) (by decide) hA' h) id
    have hB : pyEndsWith (pyLower f) ".jpg" = false := by
      cases hB' : pyEndsWith (pyLower f) ".jpg" with
      | false => rfl
      | true => exact absurd (pyEndsWith_excl (by decide) (by decide) hB' h) id
    have hC : pyEndsWith (pyLower f) ".jpeg" = false := by
      cases hC' : pyEndsWith (pyLower f) ".jpeg" with
      | false => rfl
      | true => exact absurd (pyEndsWith_excl (by decide) (by decide) hC' h) id
    simp [inferMediaType, h0, hA, hB, hC, h]
  · intro h
    have h0 := hfe ".gif" h (by decide)
    have hA : pyEndsWith (pyLower f) ".png" = false := by
      cases hA' : pyEndsWith (pyLower f) ".png" with
      | false => rfl
      | true => exact absurd (pyEndsWith_excl (by decide) (by decide) hA' h) id
    have hB : pyEndsWith (pyLower f) ".jpg" = false := by
      cases hB' : pyEndsWith (pyLower f) ".jpg" with
      | false => rfl
      | true => exact absurd (pyEndsWith_excl (by decide) (by decide) hB' h) id
    have hC : pyEndsWith (pyLower f) ".jpeg" = false := by
      cases hC' : pyEndsWith (pyLower f) ".jpeg" with
      | false => rfl
      | true => exact absurd (pyEndsWith_excl (by decide) (by decide) h hC') id
    have hD : pyEndsWith (pyLower f) ".webp" = false := by
      cases hD' : pyEndsWith (pyLower f) ".webp" with
      | false => rfl
      | true => exact absurd (pyEndsWith_excl (by decide) (by decide) h hD') id
    simp [inferMediaType, h0, hA, hB, hC, hD, h]
  · intro hA hB hC hD hE
    cases hf0 : f == "" <;> simp [inferMediaType, hf0, hA, hB, hC, hD, hE]

/-- Witness for C3 across each extension class. -/
theorem media_type_inference_matches_extension_witness :
    inferMediaType (some "Plan.PNG") = "image/png" ∧
    inferMediaType (some "a.JpG") = "image/jpeg" ∧
    inferMediaType (some "b.jpeg") = "image/jpeg" ∧
    inferMediaType (some "c.WEBP") = "image/webp" ∧
    inferMediaType (some "d.gif") = "image/gif" ∧
    inferMediaType (some "e.txt") = "image/jpeg" ∧
    inferMediaType none = "image/jpeg" :=
  ⟨(media_type_inference_matches_extension "Plan.PNG").2.1 (by decide),
   (media_type_inference_matches_extension "a.JpG").2.2.1 (Or.inl (by decide)),
   (media_type_inference_matches_extension "b.jpeg").2.2.1 (Or.inr (by decide)),
   (media_type_inference_matches_extension "c.WEBP").2.2.2.1 (by decide),
   (media_type_inference_matches_extension "d.gif").2.2.2.2.1 (by decide),
   (media_type_inference_matches_extension "e.txt").2.2.2.2.2 (by decide) (by decide)
     (by decide) (by decide) (by decide),
   (media_type_inference_matches_extension "x").1⟩

/-! ## Lemmas about `pyFind`, `pyRFind`, clamping and slicing -/

/-- Scanning from accumulator `i` shifts all results by `i`. -/
theorem findSubAux_shift (nd : List Char) : ∀ (l : List Char) (i : Nat),
    findSubAux nd l i = (findSubAux nd l 0).map (fun j => i + j) := by
  intro l
  induction l with
  | nil =>
    intro i
    unfold findSubAux
    cases nd.isPrefixOf ([] : List Char) <;> simp
  | cons c t ih =>
    intro i
    unfold findSubAux
    cases hp : nd.isPrefixOf (c :: t) with
    | true => simp
    | false =>
      simp only [Bool.false_eq_true, if_false]
      rw [ih (i + 1), ih 1]
      cases findSubAux nd t 0 with
      | none => simp
      | some j => simp; omega

/-- A successful scan returns an index past the accumulator where the
needle is a prefix of the remaining list. -/
theorem findSubAux_some {nd : List Char} : ∀ {l : List Char} {i0 i : Nat},
    findSubAux nd l i0 = some i → i0 ≤ i ∧ nd.isPrefixOf (l.drop (i - i0)) = true := by
  intro l
  induction l with
  | nil =>
    intro i0 i h
    unfold findSubAux at h
    cases hp : nd.isPrefixOf ([] : List Char) with
    | true =>
      rw [hp] at h
      simp at h
      subst h
      simpa using hp
    | false =>
      rw [hp] at h
      simp at h
  | cons c t ih =>
    intro i0 i h
    unfold findSubAux at h
    cases hp : nd.isPrefixOf (c :: t) with
    | true =>
      rw [hp] at h
      simp at h
      subst h
      simpa using hp
    | false =>
      rw [hp] at h
      simp at h
      obtain ⟨h1, h2⟩ := ih h
      refine ⟨by omega, ?_⟩
      have he : i - i0 = (i - (i0 + 1)) + 1 := by omega
      rw [he, List.drop_succ_cons]
      exact h2

/-- A successful `pyFindNatFrom` points at an occurrence at or after the
start position. -/
theorem pyFindNatFrom_isPrefixOf {hay nd : List Char} {a i : Nat}
    (h : pyFindNatFrom hay nd a = some i) :
    a ≤ i ∧ nd.isPrefixOf (hay.drop i) = true := by
  unfold pyFindNatFrom at h
  split at h
  · obtain ⟨h1, h2⟩ := findSubAux_some h
    refine ⟨h1, ?_⟩
    rw [List.drop_drop] at h2
    rwa [show a + (i - a) = i by omega] at h2
  · simp at h

/-- `pyFindNatFrom` from a valid start, rephrased through the scan of the
dropped haystack. -/
theorem pyFindNatFrom_from_eq {hay nd : List Char} {a : Nat} (ha : a ≤ hay.length) :
    pyFindNatFrom hay nd a = (findSubAux nd (hay.drop a) 0).map (fun j => a + j) := by
  unfold pyFindNatFrom
  rw [if_pos ha, findSubAux_shift]

/-- `pyFindNatFrom` at start zero is the plain scan. -/
theorem pyFindNatFrom_zero (l nd : List Char) :
    pyFindNatFrom l nd 0 = findSubAux nd l 0 := by
  unfold pyFindNatFrom
  rw [if_pos (Nat.zero_le _), List.drop_zero]

/-- A successful `pyRFindNat` points at an occurrence. -/
theorem pyRFindNat_isPrefixOf {hay nd : List Char} {q : Nat}
    (h : pyRFindNat hay nd = some q) : nd.isPrefixOf (hay.drop q) = true := by
  unfold pyRFindNat at h
  simpa using List.find?_some h

/-- Clamping a natural index below the length is the identity. -/
theorem pyClampIndex_natCast {len a : Nat} (h : a ≤ len) :
    pyClampIndex len (a : Int) = a := by
  unfold pyClampIndex
  split <;> omega

/-- Clamping `-1` gives the last position. -/
theorem pyClampIndex_neg_one (len : Nat) : pyClampIndex len (-1) = len - 1 := by
  unfold pyClampIndex
  split <;> omega

/-- Clamping index zero. -/
theorem pyClampIndex_zero (len : Nat) : pyClampIndex len 0 = 0 := by
  unfold pyClampIndex
  split <;> omega

/-- A slice with in-range natural endpoints is take-then-drop. -/
theorem pySlice_natCast (t : String) (a b : Nat) (ha : a ≤ t.data.length)
    (hb : b ≤ t.data.length) :
    pySlice t (a : Int) (b : Int) = String.mk ((t.data.take b).drop a) := by
  unfold pySlice
  rw [pyClampIndex_natCast ha, pyClampIndex_natCast hb]

/-- `pyFind` of a found needle. -/
theorem pyFind_eq {t sub : String} {i : Nat}
    (h : pyFindNatFrom t.data sub.data 0 = some i) : pyFind t sub = (i : Int) := by
  unfold pyFind pyFindFrom
  rw [pyClampIndex_zero, h]

/-- `pyFindFrom` at a valid natural start, successful case. -/
theorem pyFindFrom_eq_of_some {t sub : String} {a k : Nat} (ha : a ≤ t.data.length)
    (h : pyFindNatFrom t.data sub.data a = some k) :
    pyFindFrom t sub (a : Int) = (k : Int) := by
  unfold pyFindFrom
  rw [pyClampIndex_natCast ha, h]

/-- `pyFindFrom` at a valid natural start, failing case. -/
theorem pyFindFrom_eq_of_none {t sub : String} {a : Nat} (ha : a ≤ t.data.length)
    (h : pyFindNatFrom t.data sub.data a = none) :
    pyFindFrom t sub (a : Int) = -1 := by
  unfold pyFindFrom
  rw [pyClampIndex_natCast ha, h]

/-- C9: when the reply contains the opening tag but no closing fence after
it, `find` returns `-1`, and the negative slice end makes the candidate the
after-tag text with its final character dropped, then stripped. -/
theorem unclosed_fence_drops_final_char (t : String)
    (h1 : pyContains t "```json" = true)
    (h2 : pyFindFrom t "```" (pyFind t "```json" + 7) = -1) :
    extractJsonStr t = pyStrip (String.mk (afterJsonTag t).dropLast) := by
  obtain ⟨i, hi⟩ : ∃ i, pyFindNatFrom t.data "```json".data 0 = some i := by
    unfold pyContains at h1
    exact Option.isSome_iff_exists.mp h1
  have hpre := (pyFindNatFrom_isPrefixOf hi).2
  have hb7 : i + 7 ≤ t.data.length := by
    have hlp := isPrefixOf_length hpre
    rw [List.length_drop] at hlp
    have h7 : ("```json".data).length = 7 := by decide
    omega
  have hfind : pyFind t "```json" = (i : Int) := pyFind_eq hi
  have hcast : (i : Int) + 7 = ((i + 7 : Nat) : Int) := by push_cast; ring
  rw [hfind, hcast] at h2
  have hk : pyFindNatFrom t.data "```".data (i + 7) = none := by
    cases hk' : pyFindNatFrom t.data "```".data (i + 7) with
    | none => rfl
    | some k =>
      exfalso
      rw [pyFindFrom_eq_of_some hb7 hk'] at h2
      omega
  have hAfter : afterJsonTag t = t.data.drop (i + 7) := by
    unfold afterJsonTag
    rw [hfind]
    simp
  unfold extractJsonStr
  rw [if_pos h1, hfind, hcast, pyFindFrom_eq_of_none hb7 hk]
  unfold pySlice
  rw [pyClampIndex_natCast hb7, pyClampIndex_neg_one, hAfter]
  have hlist : (t.data.take (t.data.length - 1)).drop (i + 7) =
      (t.data.drop (i + 7)).dropLast := by
    rcases Nat.lt_or_ge (i + 7) t.data.length with hlt | hge
    · have hidx : t.data.length - 1 = (i + 7) + (t.data.length - (i + 7) - 1) := by
        omega
      rw [List.dropLast_eq_take, List.length_drop, List.take_drop, ← hidx]
    · have hd : t.data.drop (i + 7) = [] := List.drop_of_length_le (by omega)
      rw [hd]
      have hlen2 : (t.data.take (t.data.length - 1)).length ≤ i + 7 := by
        rw [List.length_take]
        omega
      rw [List.drop_of_length_le hlen2]
      rfl
  rw [hlist]

/-- Witness for C9 at a concrete reply with an unclosed fence. -/
theorem unclosed_fence_drops_final_char_witness :
    pyContains "```json\n\x7b\"a\": 1\x7d" "```json" = true ∧
    pyFindFrom "```json\n\x7b\"a\": 1\x7d" "```"
      (pyFind "```json\n\x7b\"a\": 1\x7d" "```json" + 7) = -1 ∧
    extractJsonStr "```json\n\x7b\"a\": 1\x7d" =
      pyStrip (String.mk (afterJsonTag "```json\n\x7b\"a\": 1\x7d").dropLast) :=
  ⟨rfl, rfl, unclosed_fence_drops_final_char _ rfl rfl⟩

/-- C2 counterexample: for the reply
`` ```json\n{}\n``` `` the claim's candidate ("everything between the
fences") is `"\n\x7b\x7d\n"`, but the code's candidate is the stripped
`"\x7b\x7d"`. -/
theorem candidate_not_everything_between_fences :
    candidateAsClaimed "```json\n\x7b\x7d\n```" = some "\n\x7b\x7d\n" ∧
    extractJsonStr "```json\n\x7b\x7d\n```" = "\x7b\x7d" ∧
    ("\x7b\x7d" : String) ≠ "\n\x7b\x7d\n" :=
  ⟨by decide, by decide, by decide⟩

/-- C2 amended: wherever the claim's candidate selection is defined — with
the fence-branch result additionally whitespace-stripped — the code
computes exactly that candidate. -/
theorem candidate_selection_amended_with_strip (t s : String)
    (h : candidateAmended t = some s) :
    extractJsonStr t = s := by
  unfold candidateAmended at h
  split at h
  next i h7 =>
    split at h
    next j h3 =>
      injection h with hs
      have hc : pyContains t "```json" = true := by
        unfold pyContains
        rw [h7]
        rfl
      have hpre := (pyFindNatFrom_isPrefixOf h7).2
      have hb7 : i + 7 ≤ t.data.length := by
        have hlp := isPrefixOf_length hpre
        rw [List.length_drop] at hlp
        have h7l : ("```json".data).length = 7 := by decide
        omega
      have hfind : pyFind t "```json" = (i : Int) := pyFind_eq h7
      have hcast : (i : Int) + 7 = ((i + 7 : Nat) : Int) := by push_cast; ring
      have hpre3 := (pyFindNatFrom_isPrefixOf h3).2
      have hbj : i + 7 + j + 3 ≤ t.data.length := by
        have hlp := isPrefixOf_length hpre3
        rw [List.drop_drop, List.length_drop] at hlp
        have h3l : ("```".data).length = 3 := by decide
        omega
      have hk : pyFindNatFrom t.data "```".data (i + 7) = some (i + 7 + j) := by
        rw [pyFindNatFrom_from_eq (show i + 7 ≤ t.data.length by omega)]
        rw [← pyFindNatFrom_zero, h3]
        rfl
      unfold extractJsonStr
      rw [if_pos hc, hfind, hcast, pyFindFrom_eq_of_some hb7 hk]
      rw [pySlice_natCast t (i + 7) (i + 7 + j) hb7 (by omega)]
      rw [← hs]
      have hlist : (t.data.take (i + 7 + j)).drop (i + 7) =
          (t.data.drop (i + 7)).take j := by
        rw [List.take_drop]
      rw [hlist]
    next h3 => exact Option.noConfusion h
  next h7 =>
    have hc : pyContains t "```json" = false := by
      unfold pyContains
      rw [h7]
      rfl
    split at h
    next p hb =>
      split at h
      next q hq =>
        injection h with hs
        have hcb : pyContains t "\x7b" = true := by
          unfold pyContains
          rw [hb]
          rfl
        have hp1 : p + 1 ≤ t.data.length := by
          have hlp := isPrefixOf_length (pyFindNatFrom_isPrefixOf hb).2
          rw [List.length_drop] at hlp
          have hbl : ("\x7b".data).length = 1 := by decide
          omega
        have hq1 : q + 1 ≤ t.data.length := by
          have hlp := isPrefixOf_length (pyRFindNat_isPrefixOf hq)
          rw [List.length_drop] at hlp
          have hdl : ("\x7d".data).length = 1 := by decide
          omega
        have hfp : pyFind t "\x7b" = (p : Int) := pyFind_eq hb
        have hfq : pyRFind t "\x7d" = (q : Int) := by
          unfold pyRFind
          rw [hq]
        unfold extractJsonStr
        rw [if_neg (by simp [hc]), if_pos hcb, hfp, hfq]
        rw [show ((q : Int) + 1) = ((q + 1 : Nat) : Int) by push_cast; ring]
        rw [pySlice_natCast t p (q + 1) (by omega) hq1]
        rw [← hs]
      next hq => exact Option.noConfusion h
    next hb =>
      injection h with hs
      have hcb : pyContains t "\x7b" = false := by
        unfold pyContains
        rw [hb]
        rfl
      rw [← hs]
      simp [extractJsonStr, hc, hcb]

/-- Witness for the amended C2 at a concrete fenced reply. -/
theorem candidate_selection_amended_with_strip_witness :
    candidateAmended "Sure:\n```json\n\x7b\x7d\n```" = some "\x7b\x7d" ∧
    extractJsonStr "Sure:\n```json\n\x7b\x7d\n```" = "\x7b\x7d" :=
  ⟨by decide, candidate_selection_amended_with_strip _ _ (by decide)⟩
